import Mathlib

/-
Verification of the fixed-capacity memory pool in src/pool.c.

The C code keeps two doubly linked lists of `struct llnode` (active and
available blocks).  We embed it at the pointer level: the heap of list
nodes is a `List (Option Node)` indexed by node id (`none` = freed), a
`char *` within the buffer is a `Nat` offset from `p->h`, and every C
function becomes a Lean function returning `Option _` where `none` marks
undefined behaviour (reading a freed node, an assertion failure, or a
cyclic list exhausting fuel).  Each heap read and write of the C source is
mirrored in statement order, so stale-pointer effects are reproduced
exactly.
-/

/-- Mirrors `struct llnode`: size `s`, buffer offset `start` (the C code
stores `char *start`; we store the offset from `p->h`), and the ids of the
`prev` and `next` nodes (`none` = NULL). -/
structure Node where
  s : Nat
  start : Nat
  prev : Option Nat
  next : Option Nat
deriving DecidableEq

/-- Mirrors `struct pool` plus the backing buffer: `heap` is the arena of
list nodes (`none` = freed), `buf` the byte contents of the `capacity`
bytes at `p->h`, and `active`/`available` the two list head pointers. -/
structure Pool where
  capacity : Nat
  buf : Nat → Int
  heap : List (Option Node)
  active : Option Nat
  available : Option Nat

/-- Dereference a node pointer; `none` when the id is out of range or the
node has been freed (undefined behaviour in C). -/
def getNode (p : Pool) (i : Nat) : Option Node :=
  match p.heap.get? i with
  | some (some n) => some n
  | _ => none

/-- Overwrite the node stored at id `i`. -/
def setNode (p : Pool) (i : Nat) (n : Node) : Pool :=
  { p with heap := p.heap.set i (some n) }

/-- Read-modify-write of one node, `none` if the node is not live. -/
def updNode (p : Pool) (i : Nat) (f : Node → Node) : Option Pool :=
  match getNode p i with
  | none => none
  | some n => some (setNode p i (f n))

/-- Mirrors `free(node)`: the node id becomes dead. -/
def freeNode (p : Pool) (i : Nat) : Pool :=
  { p with heap := p.heap.set i none }

/-- Mirrors `create_node(size, begin)` (pool.c:30): asserts `size > 0`,
allocates a fresh node with null links, and returns its id. -/
def createNode (p : Pool) (size b : Nat) : Option (Nat × Pool) :=
  if size = 0 then none
  else some (p.heap.length, { p with heap := p.heap ++ [some ⟨size, b, none, none⟩] })

/-- Fuel bound for list walks: a walk visiting more nodes than the heap
holds is cyclic, which the C code would loop on forever. -/
def heapFuel (p : Pool) : Nat := p.heap.length + 1

/-- Walk of `add_active` (pool.c:74-77):
`while (curr_node->start < node->start && curr_node->next) curr = next`. -/
def walkActive (p : Pool) (nStart : Nat) : Nat → Nat → Option Nat
  | _, 0 => none
  | currId, fuel + 1 =>
    match getNode p currId with
    | none => none
    | some curr =>
      if curr.start < nStart then
        match curr.next with
        | some nxt => walkActive p nStart nxt fuel
        | none => some currId
      else some currId

/-- Mirrors `add_active(node, p)` (pool.c:69-98): sorted insertion into the
active list. -/
def add_active (nodeId : Nat) (p : Pool) : Option Pool :=
  match getNode p nodeId with
  | none => none
  | some node =>
    match p.active with
    | some head =>
      match walkActive p node.start head (heapFuel p) with
      | none => none
      | some currId =>
        match getNode p currId with
        | none => none
        | some curr =>
          let preId := curr.prev
          if node.start < curr.start then
            match
              (match preId with
               | none => some { p with active := some nodeId }
               | some pid => updNode p pid (fun n => { n with next := some nodeId })) with
            | none => none
            | some p1 =>
              match updNode p1 nodeId (fun n => { n with prev := preId }) with
              | none => none
              | some p2 =>
                match updNode p2 nodeId (fun n => { n with next := some currId }) with
                | none => none
                | some p3 => updNode p3 currId (fun n => { n with prev := some nodeId })
          else
            match updNode p currId (fun n => { n with next := some nodeId }) with
            | none => none
            | some p1 =>
              match updNode p1 nodeId (fun n => { n with prev := some currId }) with
              | none => none
              | some p2 => updNode p2 nodeId (fun n => { n with next := none })
    | none =>
      match updNode p nodeId (fun n => { n with prev := none, next := none }) with
      | none => none
      | some p1 => some { p1 with active := some nodeId }

/-- Mirrors `same_size_available(node, p)` (pool.c:105-121): unlink a node
from the available list, trusting its `prev`/`next` fields. -/
def same_size_available (nodeId : Nat) (p : Pool) : Option Pool :=
  match getNode p nodeId with
  | none => none
  | some node =>
    match node.prev, node.next with
    | none, none => some { p with available := none }
    | some pid, none => updNode p pid (fun n => { n with next := none })
    | none, some nid =>
      match updNode p nid (fun n => { n with prev := none }) with
      | none => none
      | some p1 => some { p1 with available := some nid }
    | some pid, some nid =>
      match updNode p pid (fun n => { n with next := some nid }) with
      | none => none
      | some p1 => updNode p1 nid (fun n => { n with prev := some pid })

/-- Mirrors `more_size_available(node, p, size)` (pool.c:128-151): carve
`size` bytes off the front of an available node, replacing it in the list
by a fresh node for the remainder. -/
def more_size_available (nodeId : Nat) (p : Pool) (size : Nat) : Option Pool :=
  if size = 0 then none
  else
    match getNode p nodeId with
    | none => none
    | some node =>
      let nodeSize := node.s
      let nextId := node.next
      let preId := node.prev
      match createNode p (nodeSize - size) (node.start + size) with
      | none => none
      | some (newId, p0) =>
        match
          (match preId with
           | none =>
             updNode { p0 with available := some newId } newId
               (fun n => { n with prev := none })
           | some pid =>
             match updNode p0 pid (fun n => { n with next := some newId }) with
             | none => none
             | some p1 => updNode p1 newId (fun n => { n with prev := some pid })) with
        | none => none
        | some p2 =>
          match
            (match nextId with
             | none => updNode p2 newId (fun n => { n with next := none })
             | some nid =>
               match updNode p2 newId (fun n => { n with next := some nid }) with
               | none => none
               | some p3 => updNode p3 nid (fun n => { n with prev := some newId })) with
          | none => none
          | some p4 => updNode p4 nodeId (fun n => { n with s := size })

/-- Loop body of `pool_alloc` (pool.c:159-172): first fit scan of the
available list. -/
def pool_alloc_loop (size : Nat) : Pool → Nat → Nat → Option (Option Nat × Pool)
  | _, _, 0 => none
  | p, nodeId, fuel + 1 =>
    match getNode p nodeId with
    | none => none
    | some node =>
      if node.s < size then
        match node.next with
        | some nxt => pool_alloc_loop size p nxt fuel
        | none => some (none, p)
      else
        match (if node.s = size then same_size_available nodeId p
               else more_size_available nodeId p size) with
        | none => none
        | some p1 =>
          match add_active nodeId p1 with
          | none => none
          | some p2 =>
            match getNode p2 nodeId with
            | none => none
            | some n2 => some (some n2.start, p2)

/-- Mirrors `pool_alloc(p, size)` (pool.c:154-175). -/
def pool_alloc (p : Pool) (size : Nat) : Option (Option Nat × Pool) :=
  if size = 0 then none
  else
    match p.available with
    | some head => pool_alloc_loop size p head (heapFuel p)
    | none => some (none, p)

/-- Walk of `add_available` (pool.c:187-192): stop at the first node whose
start exceeds the inserted node's start, or at the tail. -/
def walkAvail (p : Pool) (nStart : Nat) : Nat → Nat → Option Nat
  | _, 0 => none
  | currId, fuel + 1 =>
    match getNode p currId with
    | none => none
    | some curr =>
      if nStart < curr.start then some currId
      else
        match curr.next with
        | none => some currId
        | some nxt => walkAvail p nStart nxt fuel

/-- Mirrors `add_available(node, p)` (pool.c:182-231): sorted insertion
into the available list with coalescing against the two neighbours.  Note
the faithful reproduction of the head-insertion branch (pool.c:201-203),
which does not clear `node->prev`. -/
def add_available (nodeId : Nat) (p : Pool) : Option Pool :=
  match p.available with
  | some head =>
    match getNode p nodeId with
    | none => none
    | some node =>
      match walkAvail p node.start head (heapFuel p) with
      | none => none
      | some stopId =>
        match getNode p stopId with
        | none => none
        | some stop =>
          let pc : Option Nat × Option Nat :=
            if node.start < stop.start then (stop.prev, some stopId)
            else (some stopId, none)
          match
            (match pc.1 with
             | none => some ({ p with available := some nodeId }, nodeId)
             | some pid =>
               match getNode p pid with
               | none => none
               | some pre =>
                 if pre.start + pre.s = node.start then
                   match updNode p pid (fun n => { n with s := n.s + node.s }) with
                   | none => none
                   | some p1 => some (freeNode p1 nodeId, pid)
                 else
                   match updNode p pid (fun n => { n with next := some nodeId }) with
                   | none => none
                   | some p1 =>
                     match updNode p1 nodeId (fun n => { n with prev := some pid }) with
                     | none => none
                     | some p2 => some (p2, nodeId)) with
          | none => none
          | some (p1, newPrevId) =>
            match pc.2 with
            | none => updNode p1 newPrevId (fun n => { n with next := none })
            | some currId =>
              match getNode p1 newPrevId, getNode p1 currId with
              | some np, some curr =>
                if np.start + np.s = curr.start then
                  match updNode p1 newPrevId (fun n => { n with s := n.s + curr.s }) with
                  | none => none
                  | some p2 =>
                    match updNode p2 newPrevId (fun n => { n with next := curr.next }) with
                    | none => none
                    | some p3 =>
                      match
                        (match curr.next with
                         | some cn => updNode p3 cn (fun n => { n with prev := some newPrevId })
                         | none => some p3) with
                      | none => none
                      | some p4 => some (freeNode p4 currId)
                else
                  match updNode p1 newPrevId (fun n => { n with next := some currId }) with
                  | none => none
                  | some p2 => updNode p2 currId (fun n => { n with prev := some newPrevId })
              | _, _ => none
  | none =>
    match updNode p nodeId (fun n => { n with prev := none, next := none }) with
    | none => none
    | some p1 => some { p1 with available := some nodeId }

/-- Loop of `pool_free` (pool.c:237-257): scan the active list for the
exact start offset, unlink the match and hand it to `add_available`. -/
def pool_free_loop (addr : Nat) : Pool → Nat → Nat → Option (Bool × Pool)
  | _, _, 0 => none
  | p, nodeId, fuel + 1 =>
    match getNode p nodeId with
    | none => none
    | some node =>
      if node.start = addr then
        match
          (match node.prev, node.next with
           | none, none => some { p with active := none }
           | some pid, none => updNode p pid (fun n => { n with next := none })
           | none, some nid =>
             updNode { p with active := some nid } nid (fun n => { n with prev := none })
           | some pid, some nid =>
             match updNode p pid (fun n => { n with next := some nid }) with
             | none => none
             | some p1 => updNode p1 nid (fun n => { n with prev := some pid })) with
        | none => none
        | some p2 =>
          match add_available nodeId p2 with
          | none => none
          | some p3 => some (true, p3)
      else
        match node.next with
        | some nxt => pool_free_loop addr p nxt fuel
        | none => some (false, p)

/-- Mirrors `pool_free(p, addr)` (pool.c:234-259). -/
def pool_free (p : Pool) (addr : Nat) : Option (Bool × Pool) :=
  match p.active with
  | none => some (false, p)
  | some head => pool_free_loop addr p head (heapFuel p)

/-- Loop of `find_active` (pool.c:268-275): read-only scan of the active
list for an exact start offset. -/
def find_active_loop (p : Pool) (addr : Nat) : Nat → Nat → Option (Option Nat)
  | _, 0 => none
  | nodeId, fuel + 1 =>
    match getNode p nodeId with
    | none => none
    | some node =>
      if node.start = addr then some (some nodeId)
      else
        match node.next with
        | some nxt => find_active_loop p addr nxt fuel
        | none => some none

/-- Mirrors `find_active(addr, p)` (pool.c:266-277). -/
def find_active (p : Pool) (addr : Nat) : Option (Option Nat) :=
  match p.active with
  | none => some none
  | some head => find_active_loop p addr head (heapFuel p)

/-- Loop of `find_available` (pool.c:289-301): scan while `start <= addr`;
on an exact hit with sufficient size, carve the needed amount out of the
list and return the node. -/
def find_available_loop (addr size : Nat) : Pool → Nat → Nat → Option (Option Nat × Pool)
  | _, _, 0 => none
  | p, nodeId, fuel + 1 =>
    match getNode p nodeId with
    | none => none
    | some node =>
      if node.start ≤ addr then
        if node.start = addr then
          if node.s < size then some (none, p)
          else
            match (if node.s = size then same_size_available nodeId p
                   else more_size_available nodeId p size) with
            | none => none
            | some p1 => some (some nodeId, p1)
        else
          match node.next with
          | some nxt => find_available_loop addr size p nxt fuel
          | none => some (none, p)
      else some (none, p)

/-- Mirrors `find_available(addr, size, p)` (pool.c:285-303). -/
def find_available (p : Pool) (addr size : Nat) : Option (Option Nat × Pool) :=
  if size = 0 then none
  else
    match p.available with
    | none => some (none, p)
    | some head => find_available_loop addr size p head (heapFuel p)

/-- One byte store into the buffer. -/
def writeBuf (p : Pool) (dst : Nat) (v : Int) : Pool :=
  { p with buf := fun j => if j = dst then v else p.buf j }

/-- Mirrors the copy loop of `pool_realloc` (pool.c:325-327): ascending
byte-by-byte copy, each read seeing earlier writes. -/
def copyBytes (p : Pool) (dst src : Nat) : Nat → Pool
  | 0 => p
  | n + 1 => copyBytes (writeBuf p dst (p.buf src)) (dst + 1) (src + 1) n

/-- Mirrors `pool_realloc(p, addr, size)` (pool.c:306-339). -/
def pool_realloc (p : Pool) (addr size : Nat) : Option (Option Nat × Pool) :=
  if size = 0 then none
  else
    match find_active p addr with
    | none => none
    | some none => some (none, p)
    | some (some nodeId) =>
      match getNode p nodeId with
      | none => none
      | some node =>
        if node.s = size then some (some node.start, p)
        else if size < node.s then
          match createNode p (node.s - size) (node.start + size) with
          | none => none
          | some (newId, p1) =>
            match add_available newId p1 with
            | none => none
            | some p2 =>
              match updNode p2 nodeId (fun n => { n with s := size }) with
              | none => none
              | some p3 =>
                match getNode p3 nodeId with
                | none => none
                | some n2 => some (some n2.start, p3)
        else
          match find_available p (addr + node.s) (size - node.s) with
          | none => none
          | some (some foundId, p1) =>
            match updNode (freeNode p1 foundId) nodeId (fun n => { n with s := size }) with
            | none => none
            | some p3 =>
              match getNode p3 nodeId with
              | none => none
              | some n2 => some (some n2.start, p3)
          | some (none, p1) =>
            match pool_alloc p1 size with
            | none => none
            | some (none, p2) => some (none, p2)
            | some (some myStart, p2) =>
              match getNode p2 nodeId with
              | none => none
              | some nodeNow =>
                match pool_free (copyBytes p2 myStart nodeNow.start nodeNow.s) addr with
                | none => none
                | some (_, p4) => some (some myStart, p4)

/-- Mirrors `pool_create(size)` (pool.c:42-49); the malloc'd buffer is
uninitialised, so its contents are a parameter. -/
def pool_create (size : Nat) (buf : Nat → Int) : Option Pool :=
  if size = 0 then none
  else some
    { capacity := size
      buf := buf
      heap := [some ⟨size, 0, none, none⟩]
      active := none
      available := some 0 }

/-- Mirrors `pool_destroy(p)` (pool.c:52-62): fails iff the active list is
non-empty; on success frees the single node `p->available` points to (a
double free — undefined behaviour — if that node is already dead). -/
def pool_destroy (p : Pool) : Option (Bool × Pool) :=
  match p.active with
  | some _ => some (false, p)
  | none =>
    match p.available with
    | none => some (true, p)
    | some aid =>
      match getNode p aid with
      | none => none
      | some _ => some (true, freeNode p aid)

/-- Number of list nodes not yet freed: the bookkeeping `pool_destroy`
must release. -/
def liveNodes (p : Pool) : Nat :=
  p.heap.countP fun n => n.isSome

/-- Observation: the `(offset, length)` pairs of a list walked through the
`next` links, exactly as `pool_print_active`/`pool_print_available`
(pool.c:342-387) would traverse it; `none` when the walk dereferences a
freed node or cycles. -/
def walkBlocks (p : Pool) : Option Nat → Nat → Option (List (Nat × Nat))
  | none, _ => some []
  | some _, 0 => none
  | some nid, fuel + 1 =>
    match getNode p nid with
    | none => none
    | some n =>
      match walkBlocks p n.next fuel with
      | none => none
      | some rest => some ((n.start, n.s) :: rest)

/-- Blocks of the active list in link order. -/
def activeBlocks (p : Pool) : Option (List (Nat × Nat)) :=
  walkBlocks p p.active (heapFuel p)

/-- Blocks of the available list in link order. -/
def availBlocks (p : Pool) : Option (List (Nat × Nat)) :=
  walkBlocks p p.available (heapFuel p)

/-- How many blocks of `l` contain byte offset `i`. -/
def coveredCount (l : List (Nat × Nat)) (i : Nat) : Nat :=
  l.countP fun b => decide (b.1 ≤ i ∧ i < b.1 + b.2)

/-- Whether two distinct blocks of `l` are address-adjacent (one block's
end offset equals another block's start offset). -/
def hasAdjacentPair (l : List (Nat × Nat)) : Bool :=
  l.enum.any fun bi =>
    l.enum.any fun bj =>
      bi.1 ≠ bj.1 && bi.2.1 + bi.2.2 == bj.2.1

/-- A public operation of the pool API. -/
inductive Op where
  | alloc : Nat → Op
  | free : Nat → Op
  | realloc : Nat → Nat → Op
deriving DecidableEq

/-- Run one public operation, keeping only the state. -/
def runOp (p : Pool) : Op → Option Pool
  | .alloc n => (pool_alloc p n).map (·.2)
  | .free a => (pool_free p a).map (·.2)
  | .realloc a n => (pool_realloc p a n).map (·.2)

/-- Run a trace of public operations from `pool_create`. -/
def runTrace (cap : Nat) (buf : Nat → Int) (ops : List Op) : Option Pool :=
  ops.foldl (fun acc op => acc.bind (fun p => runOp p op)) (pool_create cap buf)

/-- The reachable pool states: results of some finite trace of public
operations starting from `pool_create`. -/
def Reachable (p : Pool) : Prop :=
  ∃ cap buf ops, runTrace cap buf ops = some p

/-- An all-zero initial buffer, used for concrete traces. -/
def zbuf : Nat → Int := fun _ => 0

namespace Spec

/-- Modelled from the spec: abstract pool state of spec.md section 3 — the
capacity and the two ordered block lists, used as the comparison point the
code model diverges from. -/
structure SPool where
  capacity : Nat
  active : List (Nat × Nat)
  avail : List (Nat × Nat)
deriving DecidableEq

/-- Modelled from the spec: `create(capacity)` seeds the available list
with one Block spanning the whole capacity (spec.md section 4.3). -/
def create (cap : Nat) : Option SPool :=
  if cap = 0 then none else some ⟨cap, [], [(0, cap)]⟩

/-- Insertion preserving ascending-offset order (spec.md section 4.1). -/
def insertSorted (b : Nat × Nat) : List (Nat × Nat) → List (Nat × Nat)
  | [] => [b]
  | c :: rest => if b.1 < c.1 then b :: c :: rest else c :: insertSorted b rest

/-- Full coalescing of address-adjacent blocks in a sorted list (spec.md
section 4.2, release). -/
def coalesce : List (Nat × Nat) → List (Nat × Nat)
  | [] => []
  | b :: rest =>
    match coalesce rest with
    | [] => [b]
    | c :: rest2 => if b.1 + b.2 = c.1 then (b.1, b.2 + c.2) :: rest2 else b :: c :: rest2

/-- Modelled from the spec: first-fit scan of the available list, carving
the leading bytes of the first sufficiently long block (spec.md section
4.2, allocate). -/
def allocFrom (n : Nat) : List (Nat × Nat) → Option (Nat × List (Nat × Nat))
  | [] => none
  | b :: rest =>
    if n ≤ b.2 then
      if n = b.2 then some (b.1, rest)
      else some (b.1, (b.1 + n, b.2 - n) :: rest)
    else (allocFrom n rest).map fun r => (r.1, b :: r.2)

/-- Modelled from the spec: `allocate(pool, size)` (spec.md section 4.2). -/
def alloc (p : SPool) (n : Nat) : Option Nat × SPool :=
  match allocFrom n p.avail with
  | none => (none, p)
  | some (o, av) => (some o, ⟨p.capacity, insertSorted (o, n) p.active, av⟩)

/-- Modelled from the spec: `release(pool, addr)` (spec.md section 4.2). -/
def free (p : SPool) (addr : Nat) : Bool × SPool :=
  match p.active.find? (fun b => b.1 == addr) with
  | none => (false, p)
  | some b =>
    (true, ⟨p.capacity, p.active.filter (fun c => c.1 != addr),
            coalesce (insertSorted b p.avail)⟩)

/-- Modelled from the spec: `resize(pool, addr, new_size)` (spec.md
section 4.2): no-op on equal size, split on shrink, in-place grow only
through the block starting exactly at `addr + length`, otherwise
allocate-copy-release with no partial effect on failure. -/
def realloc (p : SPool) (addr n : Nat) : Option Nat × SPool :=
  match p.active.find? (fun b => b.1 == addr) with
  | none => (none, p)
  | some b =>
    if b.2 = n then (some addr, p)
    else if n < b.2 then
      (some addr, ⟨p.capacity,
        p.active.map (fun c => if c.1 == addr then (addr, n) else c),
        coalesce (insertSorted (addr + n, b.2 - n) p.avail)⟩)
    else
      let needed := n - b.2
      let inPlace : Option SPool :=
        match p.avail.find? (fun c => c.1 == addr + b.2) with
        | some c =>
          if needed ≤ c.2 then
            some ⟨p.capacity,
              p.active.map (fun d => if d.1 == addr then (addr, n) else d),
              if needed = c.2 then p.avail.filter (fun d => d.1 != c.1)
              else p.avail.map (fun d => if d.1 == c.1 then (c.1 + needed, c.2 - needed) else d)⟩
          else none
        | none => none
      match inPlace with
      | some p2 => (some addr, p2)
      | none =>
        match alloc p n with
        | (none, _) => (none, p)
        | (some o, p1) => (some o, (free p1 addr).2)

/-- Modelled from the spec: `destroy` succeeds exactly when the active
list is empty (spec.md section 4.3). -/
def destroy (p : SPool) : Bool := p.active.isEmpty

/-- Run one public operation on the spec-level state. -/
def runOp (p : SPool) : Op → SPool
  | .alloc n => (alloc p n).2
  | .free a => (free p a).2
  | .realloc a n => (realloc p a n).2

/-- Run a trace of public operations on the spec-level state. -/
def runTrace (cap : Nat) (ops : List Op) : Option SPool :=
  (create cap).map fun p => ops.foldl runOp p

end Spec

theorem find_active_loop_start (p : Pool) (addr : Nat) :
    ∀ fuel nid rid, find_active_loop p addr nid fuel = some (some rid) →
      ∃ n, getNode p rid = some n ∧ n.start = addr := by
  intro fuel
  induction fuel with
  | zero => intro nid rid h; simp [find_active_loop] at h
  | succ k ih =>
    intro nid rid h
    rw [find_active_loop] at h
    cases hg : getNode p nid with
    | none => simp [hg] at h
    | some nd =>
      simp only [hg] at h
      by_cases hsa : nd.start = addr
      · simp only [if_pos hsa] at h
        obtain rfl : nid = rid := by
          have h1 := Option.some.inj h
          exact Option.some.inj h1
        exact ⟨nd, hg, hsa⟩
      · simp only [if_neg hsa] at h
        cases hn : nd.next with
        | some nxt => simp only [hn] at h; exact ih nxt rid h
        | none => simp [hn] at h

theorem find_active_start (p : Pool) (addr nid : Nat)
    (h : find_active p addr = some (some nid)) :
    ∃ n, getNode p nid = some n ∧ n.start = addr := by
  rw [find_active] at h
  cases ha : p.active with
  | none => simp [ha] at h
  | some head => rw [ha] at h; exact find_active_loop_start p addr _ head nid h

/-- C8: resize with `new_size` equal to the block's current length is a
no-op.  For any pool state (so in particular every reachable one) in which
`find_active` locates `addr` as the exact start of an active node of
length `L > 0`, `pool_realloc p addr L` returns `addr` and the state `p`
completely unchanged — both lists and the buffer included. -/
theorem C8_resize_same_length_noop (p : Pool) (addr L nid : Nat) (node : Node)
    (hL : 0 < L) (hfind : find_active p addr = some (some nid))
    (hnode : getNode p nid = some node) (hs : node.s = L) :
    pool_realloc p addr L = some (some addr, p) := by
  have hstart : node.start = addr := by
    obtain ⟨n, hn, hns⟩ := find_active_start p addr nid hfind
    rw [hnode] at hn
    exact (Option.some.inj hn) ▸ hns
  have hL0 : ¬ L = 0 := by omega
  simp [pool_realloc, hL0, hfind, hnode, hs, hstart]

/-- Witness for C8: the state after `pool_create 10` and `pool_alloc 2`
has an active node of length 2 at offset 0, and resizing it to 2 is the
identity. -/
theorem C8_resize_same_length_noop_witness :
    0 < 2 ∧
    find_active
      { capacity := 10, buf := zbuf,
        heap := [some ⟨2, 0, none, none⟩, some ⟨8, 2, none, none⟩],
        active := some 0, available := some 1 } 0 = some (some 0) ∧
    pool_realloc
      { capacity := 10, buf := zbuf,
        heap := [some ⟨2, 0, none, none⟩, some ⟨8, 2, none, none⟩],
        active := some 0, available := some 1 } 0 2 =
      some (some 0,
        { capacity := 10, buf := zbuf,
          heap := [some ⟨2, 0, none, none⟩, some ⟨8, 2, none, none⟩],
          active := some 0, available := some 1 }) :=
  ⟨by decide, by decide,
    C8_resize_same_length_noop _ 0 2 0 ⟨2, 0, none, none⟩ (by decide) (by decide) (by decide)
      (by decide)⟩

/-- C1: the partition invariant fails on a reachable state.  After the
trace `create 6; alloc 1; alloc 1; free 1; alloc 1` the code's active list
reads `(0,1),(1,1),(2,4)` and its available list still reads
`(1,1),(2,4)`: byte offset 2 lies in two blocks (one per list) instead of
exactly one, because `add_available` left a stale `prev` pointer on the
freed node and the subsequent allocation spliced the lists together.  The
spec-level pool after the same trace tiles `[0,6)` exactly. -/
theorem C1_partition_fails :
    (runTrace 6 zbuf [.alloc 1, .alloc 1, .free 1, .alloc 1]).bind activeBlocks =
      some [(0, 1), (1, 1), (2, 4)] ∧
    (runTrace 6 zbuf [.alloc 1, .alloc 1, .free 1, .alloc 1]).bind availBlocks =
      some [(1, 1), (2, 4)] ∧
    coveredCount ([(0, 1), (1, 1), (2, 4)] ++ [(1, 1), (2, 4)]) 2 = 2 ∧
    (Spec.runTrace 6 [.alloc 1, .alloc 1, .free 1, .alloc 1]).map
      (fun q => (q.active, q.avail)) = some ([(0, 1), (1, 1)], [(2, 4)]) := by
  refine ⟨by decide, by decide, by decide, by decide⟩

/-- C2: a reachable state has two address-adjacent blocks in the available
list.  After `create 6; alloc 1; alloc 1; free 1; alloc 1` the available
list reads `(1,1),(2,4)` with `1 + 1 = 2`: the coalescing invariant is
violated (the head block is even simultaneously active). -/
theorem C2_adjacent_avail_blocks :
    (runTrace 6 zbuf [.alloc 1, .alloc 1, .free 1, .alloc 1]).bind availBlocks =
      some [(1, 1), (2, 4)] ∧
    hasAdjacentPair [(1, 1), (2, 4)] = true := by
  refine ⟨by decide, by decide⟩

/-- C3: release returns false for an address that is the exact start of a
live allocation.  After `create 10; alloc 2; alloc 2; alloc 2; free 2;
alloc 2` the third allocation (offset 4) was never released, and the
spec-level state still lists `(4,2)` as active with `release(4) = true`;
the code's `pool_free(p, 4)` returns false because the earlier corruption
severed the node at offset 4 from the active list. -/
theorem C3_release_false_for_live_block :
    ((runTrace 10 zbuf [.alloc 2, .alloc 2, .alloc 2, .free 2, .alloc 2]).bind
      (fun p => pool_free p 4)).map (·.1) = some false ∧
    (Spec.runTrace 10 [.alloc 2, .alloc 2, .alloc 2, .free 2, .alloc 2]).map
      (fun q => ((Spec.free q 4).1, q.active)) =
      some (true, [(0, 2), (2, 2), (4, 2)]) := by
  refine ⟨by decide, by decide⟩

/-- C4: an allocation leaves the chosen block in the available list.
After `create 6; alloc 1; alloc 1; free 1` the available list reads
`(1,5)`; `pool_alloc(p, 1)` then splits it and returns offset 1, but the
carved head `(1,1)` remains reachable in the available list (it reads
`(1,1),(2,4)` instead of `(2,4)`): the stale `prev` pointer made
`more_size_available` rewire an active node instead of the list head. -/
theorem C4_alloc_block_stays_available :
    (runTrace 6 zbuf [.alloc 1, .alloc 1, .free 1]).bind availBlocks = some [(1, 5)] ∧
    ((runTrace 6 zbuf [.alloc 1, .alloc 1, .free 1]).bind
      (fun p => pool_alloc p 1)).map (·.1) = some (some 1) ∧
    ((runTrace 6 zbuf [.alloc 1, .alloc 1, .free 1]).bind
      (fun p => pool_alloc p 1)).bind (fun r => availBlocks r.2) =
      some [(1, 1), (2, 4)] ∧
    (Spec.runTrace 6 [.alloc 1, .alloc 1, .free 1, .alloc 1]).map Spec.SPool.avail =
      some [(2, 4)] := by
  refine ⟨by decide, by decide, by decide, by decide⟩

/-- C5: the grow fallback does not release the old block.  After
`create 10; alloc 1; alloc 2; alloc 1; alloc 1; free 1` the block `(3,1)`
is active; `pool_realloc(p, 3, 2)` cannot grow in place, falls back to
`pool_alloc`, and returns offset 1 — but the internal `pool_free(p, 3)`
fails silently (the fallback allocation severed the node at offset 3 from
the active list), so `(3,1)` ends up in neither list, while the spec-level
resize releases it into the available list as `(3,1)`. -/
theorem C5_grow_fallback_loses_block :
    ((runTrace 10 zbuf [.alloc 1, .alloc 2, .alloc 1, .alloc 1, .free 1]).bind
      (fun p => pool_realloc p 3 2)).map (·.1) = some (some 1) ∧
    ((runTrace 10 zbuf [.alloc 1, .alloc 2, .alloc 1, .alloc 1, .free 1]).bind
      (fun p => pool_realloc p 3 2)).bind (fun r => activeBlocks r.2) =
      some [(0, 1), (1, 2), (5, 5)] ∧
    ((runTrace 10 zbuf [.alloc 1, .alloc 2, .alloc 1, .alloc 1, .free 1]).bind
      (fun p => pool_realloc p 3 2)).bind (fun r => availBlocks r.2) =
      some [(1, 2), (5, 5)] ∧
    (([(0, 1), (1, 2), (5, 5)] ++ [(1, 2), (5, 5)]).contains (3, 1)) = false ∧
    (Spec.runTrace 10 [.alloc 1, .alloc 2, .alloc 1, .alloc 1, .free 1]).map
      (fun q => ((Spec.realloc q 3 2).1, (Spec.realloc q 3 2).2.avail)) =
      some (some 1, [(3, 1), (5, 5)]) := by
  refine ⟨by decide, by decide, by decide, by decide, by decide⟩

/-- C6: the in-place grow corrupts the available list.  After `create 10;
alloc 2; alloc 2; alloc 2; free 2` the available list reads `(2,2),(6,4)`,
so growing block `(0,2)` to 4 finds the boundary block `(2,2)` with
exactly the needed length; the claim says that block is removed entirely
and the available list becomes `(6,4)`.  The code returns offset 0 but
leaves `p->available` pointing at the freed node (the walk reads freed
memory) and weaves the free block `(6,4)` into the active list. -/
theorem C6_inplace_grow_corrupts_avail :
    (runTrace 10 zbuf [.alloc 2, .alloc 2, .alloc 2, .free 2]).bind availBlocks =
      some [(2, 2), (6, 4)] ∧
    ((runTrace 10 zbuf [.alloc 2, .alloc 2, .alloc 2, .free 2]).bind
      (fun p => pool_realloc p 0 4)).map (·.1) = some (some 0) ∧
    ((runTrace 10 zbuf [.alloc 2, .alloc 2, .alloc 2, .free 2]).bind
      (fun p => pool_realloc p 0 4)).bind (fun r => availBlocks r.2) = none ∧
    ((runTrace 10 zbuf [.alloc 2, .alloc 2, .alloc 2, .free 2]).bind
      (fun p => pool_realloc p 0 4)).bind (fun r => activeBlocks r.2) =
      some [(0, 4), (6, 4)] ∧
    (Spec.runTrace 10 [.alloc 2, .alloc 2, .alloc 2, .free 2]).map
      (fun q => ((Spec.realloc q 0 4).1, (Spec.realloc q 0 4).2.active,
        (Spec.realloc q 0 4).2.avail)) =
      some (some 0, [(0, 4), (4, 2)], [(6, 4)]) := by
  refine ⟨by decide, by decide, by decide, by decide, by decide⟩

/-- C7: the allocate-release round trip does not restore the available
list.  After `create 10; alloc 2; alloc 2; alloc 2; free 2` the available
list reads `(2,2),(6,4)` and `n = 2` fits in the single free block
`(2,2)`; running `alloc 2` then `free (its result 2)` completes, but
afterwards the available head points at a freed node (no valid available
list at all) instead of the original `(2,2),(6,4)`, which the spec-level
pool does restore. -/
theorem C7_roundtrip_not_restored :
    (runTrace 10 zbuf [.alloc 2, .alloc 2, .alloc 2, .free 2]).bind availBlocks =
      some [(2, 2), (6, 4)] ∧
    ([(2, 2), (6, 4)].any fun b => decide (2 ≤ b.2)) = true ∧
    ((runTrace 10 zbuf [.alloc 2, .alloc 2, .alloc 2, .free 2]).bind
      (fun p => pool_alloc p 2)).map (·.1) = some (some 2) ∧
    (runTrace 10 zbuf [.alloc 2, .alloc 2, .alloc 2, .free 2, .alloc 2, .free 2]).isSome =
      true ∧
    (runTrace 10 zbuf [.alloc 2, .alloc 2, .alloc 2, .free 2, .alloc 2, .free 2]).bind
      availBlocks = none ∧
    (Spec.runTrace 10 [.alloc 2, .alloc 2, .alloc 2, .free 2, .alloc 2, .free 2]).map
      Spec.SPool.avail = some [(2, 2), (6, 4)] := by
  refine ⟨by decide, by decide, by decide, by decide, by decide, by decide⟩

/-- C9: destroy on a reachable state with an empty active list is a double
free, not a clean success.  After `create 6; alloc 1; alloc 1; free 1;
free 0` the active list is empty, yet `p->available` points at an
already-freed node and one live bookkeeping node remains unreachable:
`pool_destroy` hits undefined behaviour (`free` of freed memory) instead
of returning true and releasing all bookkeeping. -/
theorem C9_destroy_double_free :
    (runTrace 6 zbuf [.alloc 1, .alloc 1, .free 1, .free 0]).map Pool.active =
      some none ∧
    (runTrace 6 zbuf [.alloc 1, .alloc 1, .free 1, .free 0]).map liveNodes = some 1 ∧
    ((runTrace 6 zbuf [.alloc 1, .alloc 1, .free 1, .free 0]).bind pool_destroy).isSome =
      false := by
  refine ⟨by decide, by decide, by decide⟩

/-- C10: a reachable state has an empty active list whose available list
is not one block spanning `[0, capacity)`.  After `create 6; alloc 1;
alloc 1; free 1; free 0` the active list is empty but the available head
is a dangling pointer to a freed node (walking it reads freed memory), not
a single block `(0,6)` as the spec-level pool has after the same trace. -/
theorem C10_avail_not_single_block :
    (runTrace 6 zbuf [.alloc 1, .alloc 1, .free 1, .free 0]).map Pool.active =
      some none ∧
    (runTrace 6 zbuf [.alloc 1, .alloc 1, .free 1, .free 0]).bind availBlocks =
      none ∧
    (Spec.runTrace 6 [.alloc 1, .alloc 1, .free 1, .free 0]).map
      (fun q => (q.active, q.avail)) = some ([], [(0, 6)]) := by
  refine ⟨by decide, by decide, by decide⟩
